import Mathlib

/-!
Verification of the stock change-detection and report-assembly pipeline
(`main.py`): a batch job that fetches a daily price series per company,
selects the closing prices of the last three days (`df.iloc[3, :3]`,
row 3 of the field index is the `4. close` row, the first three columns
are the three most recent dates), sorts the window by date, emits a
ChangeEvent for each adjacent pair whose absolute difference reaches 1%
of the earlier price, enriches each event with a news headline, and
persists the concatenated report to a flat file and a database table.

Prices are modelled as exact rationals. A raw stock response is
`Option` of a list of columns, one per date, each carrying that date's
field values in row order (`none` models a JSON payload without the
`Time Series (Daily)` key). A raw news response is `Option` of a list
of articles, each a list of key/value pairs (`none` models a payload
without the `articles` key). A missing DataFrame cell (pandas NaN) is
modelled as `Option.none` where it can reach an observable result.
-/

namespace StockReport

/-- One output row: `[company_name, change_date, positive_change, article_title]`
as built in `process_stock_prices`. The headline is `none` when
`process_news` returned a missing cell (NaN) rather than a string. -/
structure ChangeEvent where
  company : String
  date : String
  percentChange : ℚ
  headline : Option String
deriving DecidableEq, Repr

/-- The exceptions that can escape one company's processing:
`requests` HTTP errors, the typed `EmptyResultException(msg, val)`,
the `IndexError` from an out-of-range `iloc`, and anything else. -/
inductive Err where
  | httpError (msg : String)
  | emptyResult (msg val : String)
  | indexError
  | other (msg : String)
deriving DecidableEq, Repr

/-- A raw news payload: `none` when the `articles` key is absent,
otherwise the article list, each article a list of key/value pairs. -/
abbrev NewsJson := Option (List (List (String × String)))

/-- The `Time Series (Daily)` value: one column per date (in response
order), each column the date's field values in row order
(`1. open`, `2. high`, `3. low`, `4. close`, `5. volume`). -/
abbrev StockSeries := List (String × List ℚ)

/-- A raw stock payload: `none` when the `Time Series (Daily)` key is
absent. -/
abbrev StockJson := Option StockSeries

/-- `round(x, 2)`: round to two decimal places, ties to even
(Python's banker's rounding), over exact rationals. -/
def round2 (q : ℚ) : ℚ :=
  (if q * 100 - (⌊q * 100⌋ : ℚ) < 1 / 2 then (⌊q * 100⌋ : ℚ)
   else if 1 / 2 < q * 100 - (⌊q * 100⌋ : ℚ) then (⌊q * 100⌋ : ℚ) + 1
   else if ⌊q * 100⌋ % 2 = 0 then (⌊q * 100⌋ : ℚ)
   else (⌊q * 100⌋ : ℚ) + 1) / 100

/-- `process_news`: builds a DataFrame from the article list and reads
`df.loc[0, "title"]`. A missing `articles` key, an empty article list,
or a wholly absent `title` column raises `KeyError`, caught and turned
into the literal `"No articles found!"`. When the `title` column exists
(some article has the key) the cell of row 0 is returned: the title
string, or NaN (`none`) when the first article lacks the key. -/
def process_news (nj : NewsJson) : Option String :=
  match nj with
  | none => some "No articles found!"
  | some arts =>
    match arts with
    | [] => some "No articles found!"
    | a0 :: _ =>
      if arts.all (fun a => a.all (fun kv => kv.1 != "title")) then
        some "No articles found!"
      else
        (a0.find? (fun kv => kv.1 == "title")).map (fun kv => kv.2)

/-- The `change_date` lookup
`s[s == s[index + 1]].index[0]`: the date of the FIRST window entry
whose price equals the given value (the empty-window default is
unreachable: the looked-up value is always a member). -/
def firstDateWithPrice (w : List (String × ℚ)) (v : ℚ) : String :=
  match w.find? (fun x => decide (x.2 = v)) with
  | some x => x.1
  | none => ""

/-- The detection loop of `process_stock_prices` over the date-sorted
window: for each adjacent pair `(pᵢ, pᵢ₊₁)` (indices `i ≠ len - 1`),
if `|pᵢ - pᵢ₊₁| ≥ pᵢ * 0.01` emit a row whose date is the
`firstDateWithPrice` lookup of `pᵢ₊₁`, whose change is the rounded
absolute difference, and whose headline comes from querying the news
client at that same date. `news` models `get_news` composed up to
`process_news` of its JSON result. -/
def detect (company : String) (news : String → String → NewsJson)
    (w : List (String × ℚ)) : List ChangeEvent :=
  (w.zip w.tail).filterMap (fun pr =>
    if pr.1.2 * (1 / 100) ≤ |pr.1.2 - pr.2.2| then
      let cd := firstDateWithPrice w pr.2.2
      some { company := company, date := cd,
             percentChange := round2 |pr.1.2 - pr.2.2|,
             headline := process_news (news company cd) }
    else none)

/-- Number of rows of the DataFrame built from the series: the field
index size, the longest column under the uniform-fields shape. -/
def nrows (ts : StockSeries) : ℕ :=
  (ts.map (fun c => c.2.length)).foldr max 0

/-- Row 3 of each given column, paired with the column's date.
`none` models a column lacking row 3 (a ragged payload; pandas would
align it with NaN, which no further claim-relevant path distinguishes
from the index error). -/
def closesAt3 : StockSeries → Option (List (String × ℚ))
  | [] => some []
  | c :: rest =>
    match c.2.get? 3 with
    | none => none
    | some v => (closesAt3 rest).map (fun tl => (c.1, v) :: tl)

/-- `df.iloc[3, :3]` followed by `astype(float)`: `none` models the
`IndexError` raised when the frame has no row 3; otherwise row 3 of the
first three columns. -/
def select_closes (ts : StockSeries) : Option (List (String × ℚ)) :=
  if nrows ts ≤ 3 then none
  else closesAt3 (ts.take 3)

/-- The ordering used by `sort_index()`: ascending by the date label. -/
def dateLe (a b : String × ℚ) : Prop := a.1 ≤ b.1

instance : DecidableRel dateLe := fun a b =>
  inferInstanceAs (Decidable (a.1 ≤ b.1))

instance : IsTotal (String × ℚ) dateLe := ⟨fun a b => le_total a.1 b.1⟩

instance : IsTrans (String × ℚ) dateLe := ⟨fun _ _ _ h1 h2 => le_trans h1 h2⟩

/-- `sort_index()`: stable sort of the (date, close) window ascending
by date. -/
def sort_closes (w : List (String × ℚ)) : List (String × ℚ) :=
  w.insertionSort dateLe

/-- `process_stock_prices(stock_name, company_name, stock_json)`.
A payload without the series key raises `KeyError`, caught and
re-raised as `EmptyResultException("Stock not found!", stock_name)`;
the `IndexError` from `iloc[3, :3]` is NOT a `KeyError` and propagates
untyped; otherwise the sorted window is scanned for changes. -/
def process_stock_prices (stock_name company_name : String)
    (news : String → String → NewsJson) (stock_json : StockJson) :
    Except Err (List ChangeEvent) :=
  match stock_json with
  | none => .error (.emptyResult "Stock not found!" stock_name)
  | some ts =>
    match select_closes ts with
    | none => .error .indexError
    | some closes => .ok (detect company_name news (sort_closes closes))

/-- One company's contribution to the report: its events on success,
nothing when any step raised (the `except Exception` of the batch
loop). -/
def companyEvents (fetch : String → Except Err StockJson)
    (news : String → String → NewsJson) (c : String × String) :
    List ChangeEvent :=
  match fetch c.1 >>= process_stock_prices c.1 c.2 news with
  | .ok evs => evs
  | .error _ => []

/-- The module-level batch loop (`runBatch` of the spec): iterate the
company list in order, fetch and process each, append the rows to the
running report, and on any exception log and continue with the next
company. `fetch` models `get_stock_prices` (transport errors as
`Except.error`). -/
def runBatch (fetch : String → Except Err StockJson)
    (news : String → String → NewsJson)
    (companies : List (String × String)) : List ChangeEvent :=
  companies.foldl (fun acc c =>
    match fetch c.1 >>= process_stock_prices c.1 c.2 news with
    | .ok evs => acc ++ evs
    | .error _ => acc) []

/-- The externally visible state touched after the batch loop:
`out_result.csv`, the database table, and `out_db_result.csv`. -/
structure World where
  out_result : Option (List ChangeEvent)
  dbTable : List ChangeEvent
  out_db_result : Option (List ChangeEvent)
deriving DecidableEq, Repr

/-- The tail of the script: `res_df.to_csv('out_result.csv', ...)`,
then one `try` block running `load_to_db` (append the report to the
table) and `read_from_db` (write the rows with `Company = "Oracle"` to
`out_db_result.csv`), whose single `except` logs any failure. A
`load_to_db` failure therefore also skips `read_from_db`. -/
def finalize (persistFails verifyFails : Bool)
    (report : List ChangeEvent) (w0 : World) : World :=
  let w1 : World := { w0 with out_result := some report }
  if persistFails then w1
  else
    let w2 : World := { w1 with dbTable := w1.dbTable ++ report }
    if verifyFails then w2
    else { w2 with
           out_db_result :=
             some (w2.dbTable.filter (fun e => decide (e.company = "Oracle"))) }

/-! Concrete inputs used by witnesses and counterexamples. -/

/-- A news client whose every response lacks the `articles` key. -/
def newsNone : String → String → NewsJson := fun _ _ => none

/-- A three-date series (newest first) whose closes are `100, 102, 100`:
the close of the oldest day recurs on the newest day. -/
def seriesDup : StockSeries :=
  [("d3", [1, 1, 1, 100, 1]), ("d2", [1, 1, 1, 102, 1]), ("d1", [1, 1, 1, 100, 1])]

/-- A three-date series (newest first) with pairwise-distinct closes
`100, 102, 104` ascending by date. -/
def seriesUp : StockSeries :=
  [("d3", [1, 1, 1, 104, 1]), ("d2", [1, 1, 1, 102, 1]), ("d1", [1, 1, 1, 100, 1])]

/-- A three-date series whose closes are all `100`: below the 1%
threshold on both adjacent pairs. -/
def seriesFlat : StockSeries :=
  [("d3", [1, 1, 1, 100, 1]), ("d2", [1, 1, 1, 100, 1]), ("d1", [1, 1, 1, 100, 1])]

/-- A market-data client answering every symbol with `seriesDup`. -/
def fetchDup : String → Except Err StockJson := fun _ => .ok (some seriesDup)

/-- A market-data client answering every symbol with `seriesUp`. -/
def fetchUp : String → Except Err StockJson := fun _ => .ok (some seriesUp)

/-- A market-data client that fails with a transport error for the
symbol `"T3"` and answers `seriesUp` for every other symbol. -/
def fetchThirdFails : String → Except Err StockJson := fun s =>
  if s = "T3" then .error (.httpError "503") else .ok (some seriesUp)

/-- A five-company batch whose third entry uses the failing symbol. -/
def cs5 : List (String × String) :=
  [("T1", "Ca"), ("T2", "Cb"), ("T3", "Cc"), ("T4", "Cd"), ("T5", "Ce")]

/-- The first event produced by a batch over `seriesUp`. -/
def evGain2 : ChangeEvent :=
  { company := "Co", date := "d2", percentChange := 2,
    headline := some "No articles found!" }

/-- The second event produced by a batch over `seriesUp`. -/
def evGain3 : ChangeEvent :=
  { company := "Co", date := "d3", percentChange := 2,
    headline := some "No articles found!" }

/-- A report row for the company used by the verification query. -/
def evOracle : ChangeEvent :=
  { company := "Oracle", date := "d2", percentChange := 2, headline := some "t" }

/-! Helper lemmas. -/

lemma not_d2_d1 (p q : ℚ) : ¬ dateLe ("d2", p) ("d1", q) := by
  simp [dateLe]; decide

lemma not_d3_d1 (p q : ℚ) : ¬ dateLe ("d3", p) ("d1", q) := by
  simp [dateLe]; decide

lemma not_d3_d2 (p q : ℚ) : ¬ dateLe ("d3", p) ("d2", q) := by
  simp [dateLe]; decide

lemma foldl_append_eq_join {α β : Type} (f : α → List β) :
    ∀ (l : List α) (acc : List β),
      l.foldl (fun a c => a ++ f c) acc = acc ++ (l.map f).flatten
  | [], acc => by simp
  | c :: l, acc => by
    simp only [List.foldl_cons, List.map_cons, List.flatten]
    rw [foldl_append_eq_join f l (acc ++ f c), List.append_assoc]

lemma runBatch_eq_join (fetch : String → Except Err StockJson)
    (news : String → String → NewsJson) (cs : List (String × String)) :
    runBatch fetch news cs = (cs.map (companyEvents fetch news)).flatten := by
  have hfun : ∀ (acc : List ChangeEvent) (c : String × String),
      (match fetch c.1 >>= process_stock_prices c.1 c.2 news with
       | .ok evs => acc ++ evs
       | .error _ => acc) = acc ++ companyEvents fetch news c := by
    intro acc c
    unfold companyEvents
    cases fetch c.1 >>= process_stock_prices c.1 c.2 news with
    | ok evs => rfl
    | error e => simp
  unfold runBatch
  simp only [hfun]
  simpa using foldl_append_eq_join (companyEvents fetch news) cs []

lemma round2_nonneg {q : ℚ} (h : 0 ≤ q) : 0 ≤ round2 q := by
  have hx : (0 : ℚ) ≤ q * 100 := by positivity
  have hf : (0 : ℤ) ≤ ⌊q * 100⌋ := Int.floor_nonneg.mpr hx
  have hf0 : (0 : ℚ) ≤ (⌊q * 100⌋ : ℚ) := by exact_mod_cast hf
  have hf1 : (0 : ℚ) ≤ (⌊q * 100⌋ : ℚ) + 1 := by linarith
  unfold round2
  split_ifs <;> positivity

lemma round2_cent (q : ℚ) : ∃ n : ℤ, round2 q = (n : ℚ) / 100 := by
  unfold round2
  split_ifs
  · exact ⟨⌊q * 100⌋, rfl⟩
  · exact ⟨⌊q * 100⌋ + 1, by push_cast; ring⟩
  · exact ⟨⌊q * 100⌋, rfl⟩
  · exact ⟨⌊q * 100⌋ + 1, by push_cast; ring⟩

lemma detect_mem {e : ChangeEvent} {c : String} {news : String → String → NewsJson}
    {w : List (String × ℚ)} (h : e ∈ detect c news w) :
    ∃ a b : ℚ, e.percentChange = round2 |a - b| := by
  unfold detect at h
  rcases List.mem_filterMap.mp h with ⟨pr, _, hf⟩
  by_cases hc : pr.1.2 * (1 / 100) ≤ |pr.1.2 - pr.2.2|
  · rw [if_pos hc] at hf
    refine ⟨pr.1.2, pr.2.2, ?_⟩
    cases hf
    rfl
  · rw [if_neg hc] at hf
    cases hf

lemma closesAt3_length : ∀ {l : StockSeries} {r : List (String × ℚ)},
    closesAt3 l = some r → r.length = l.length
  | [], r, h => by
    simp only [closesAt3, Option.some.injEq] at h
    subst h
    rfl
  | c :: l, r, h => by
    unfold closesAt3 at h
    cases hg : c.2.get? 3 with
    | none => rw [hg] at h; cases h
    | some v =>
      rw [hg] at h
      cases hr : closesAt3 l with
      | none => rw [hr] at h; cases h
      | some tl =>
        rw [hr] at h
        simp only [Option.map_some', Option.some.injEq] at h
        subst h
        simp [closesAt3_length hr]

lemma select_closes_length {ts : StockSeries} {closes : List (String × ℚ)}
    (h : select_closes ts = some closes) : closes.length ≤ 3 := by
  unfold select_closes at h
  split at h
  · cases h
  · calc closes.length = (ts.take 3).length := closesAt3_length h
    _ ≤ 3 := List.length_take_le _ _

lemma detect_length (c : String) (news : String → String → NewsJson)
    (w : List (String × ℚ)) : (detect c news w).length ≤ w.tail.length := by
  unfold detect
  calc (List.filterMap _ (w.zip w.tail)).length
      ≤ (w.zip w.tail).length := List.length_filterMap_le _ _
    _ ≤ w.tail.length := by
        rw [List.length_zip]
        exact min_le_right _ _

lemma process_ok_shape {sn cn : String} {news : String → String → NewsJson}
    {j : StockJson} {evs : List ChangeEvent}
    (h : process_stock_prices sn cn news j = .ok evs) :
    ∃ ts closes, j = some ts ∧ select_closes ts = some closes ∧
      evs = detect cn news (sort_closes closes) := by
  cases j with
  | none => cases h
  | some ts =>
    simp only [process_stock_prices] at h
    cases hs : select_closes ts with
    | none => rw [hs] at h; cases h
    | some closes =>
      rw [hs] at h
      simp only [Except.ok.injEq] at h
      exact ⟨ts, closes, rfl, hs, h.symm⟩

lemma bind_ok_process {fetch : String → Except Err StockJson}
    {news : String → String → NewsJson} {c : String × String}
    {evs : List ChangeEvent}
    (hb : fetch c.1 >>= process_stock_prices c.1 c.2 news = .ok evs) :
    ∃ j, process_stock_prices c.1 c.2 news j = .ok evs := by
  cases hf : fetch c.1 with
  | error e =>
    rw [hf] at hb
    simp only [Bind.bind, Except.bind] at hb
    exact Except.noConfusion hb
  | ok j =>
    rw [hf] at hb
    simp only [Bind.bind, Except.bind] at hb
    exact ⟨j, hb⟩

lemma companyEvents_length (fetch : String → Except Err StockJson)
    (news : String → String → NewsJson) (c : String × String) :
    (companyEvents fetch news c).length ≤ 2 := by
  unfold companyEvents
  cases hb : fetch c.1 >>= process_stock_prices c.1 c.2 news with
  | error e => simp
  | ok evs =>
    show evs.length ≤ 2
    rcases bind_ok_process hb with ⟨j, hj⟩
    rcases process_ok_shape hj with ⟨ts, closes, _, hsel, hevs⟩
    have h1 : evs.length ≤ (sort_closes closes).tail.length := by
      rw [hevs]; exact detect_length _ _ _
    have h2 : (sort_closes closes).length = closes.length := by
      unfold sort_closes; exact List.length_insertionSort _ _
    have h3 : closes.length ≤ 3 := select_closes_length hsel
    have h4 : (sort_closes closes).tail.length = (sort_closes closes).length - 1 :=
      List.length_tail _
    omega

lemma detect_three (c : String) (news : String → String → NewsJson)
    (d0 d1 d2 : String) (p0 p1 p2 : ℚ) :
    detect c news [(d0, p0), (d1, p1), (d2, p2)] =
      (if p0 * (1 / 100) ≤ |p0 - p1| then
        [{ company := c,
           date := firstDateWithPrice [(d0, p0), (d1, p1), (d2, p2)] p1,
           percentChange := round2 |p0 - p1|,
           headline := process_news
             (news c (firstDateWithPrice [(d0, p0), (d1, p1), (d2, p2)] p1)) }]
       else []) ++
      (if p1 * (1 / 100) ≤ |p1 - p2| then
        [{ company := c,
           date := firstDateWithPrice [(d0, p0), (d1, p1), (d2, p2)] p2,
           percentChange := round2 |p1 - p2|,
           headline := process_news
             (news c (firstDateWithPrice [(d0, p0), (d1, p1), (d2, p2)] p2)) }]
       else []) := by
  unfold detect
  show List.filterMap _ [((d0, p0), (d1, p1)), ((d1, p1), (d2, p2))] = _
  rw [List.filterMap_cons, List.filterMap_cons, List.filterMap_nil]
  by_cases h0 : p0 * (1 / 100) ≤ |p0 - p1| <;>
    by_cases h1 : p1 * (1 / 100) ≤ |p1 - p2|
  · rw [if_pos h0, if_pos h1, if_pos h0, if_pos h1]; rfl
  · rw [if_pos h0, if_neg h1, if_pos h0, if_neg h1]; rfl
  · rw [if_neg h0, if_pos h1, if_neg h0, if_pos h1]; rfl
  · rw [if_neg h0, if_neg h1, if_neg h0, if_neg h1]; rfl

lemma firstDateWithPrice_cons_self {d : String} {p : ℚ}
    (w : List (String × ℚ)) : firstDateWithPrice ((d, p) :: w) p = d := by
  unfold firstDateWithPrice
  rw [List.find?_cons_of_pos _ (by simp)]

lemma firstDateWithPrice_cons_ne {d : String} {p v : ℚ} (h : p ≠ v)
    (w : List (String × ℚ)) :
    firstDateWithPrice ((d, p) :: w) v = firstDateWithPrice w v := by
  unfold firstDateWithPrice
  rw [List.find?_cons_of_neg _ (by simpa using h)]

lemma firstDateWithPrice_of_nodup :
    ∀ {w : List (String × ℚ)} {d : String} {p : ℚ},
      (w.map Prod.snd).Nodup → (d, p) ∈ w → firstDateWithPrice w p = d
  | [], d, p, _, hm => absurd hm (List.not_mem_nil _)
  | (d0, p0) :: w, d, p, hnd, hm => by
    have hnd2 : p0 ∉ w.map Prod.snd ∧ (w.map Prod.snd).Nodup := by
      rw [List.map_cons, List.nodup_cons] at hnd
      exact hnd
    rcases List.mem_cons.mp hm with h | h
    · rw [Prod.mk.injEq] at h
      rw [← h.1, ← h.2]
      exact firstDateWithPrice_cons_self w
    · have hp0 : p0 ≠ p := by
        intro he
        have hmem : p ∈ w.map Prod.snd := List.mem_map.mpr ⟨(d, p), h, rfl⟩
        exact hnd2.1 (he ▸ hmem)
      rw [firstDateWithPrice_cons_ne hp0 w]
      exact firstDateWithPrice_of_nodup hnd2.2 h

lemma filterMap_sublist_map {α β : Type} (f : α → Option β) (g : α → β) :
    ∀ (l : List α), (∀ x ∈ l, f x = none ∨ f x = some (g x)) →
      (l.filterMap f).Sublist (l.map g)
  | [], _ => by simp
  | x :: l, hfg => by
    have htail := filterMap_sublist_map f g l
      (fun y hy => hfg y (List.mem_cons_of_mem _ hy))
    rcases hfg x (List.mem_cons_self _ _) with h | h
    · rw [List.filterMap_cons, h, List.map_cons]
      exact htail.cons _
    · rw [List.filterMap_cons, h, List.map_cons]
      exact htail.cons₂ _

lemma detect_sorted (c : String) (news : String → String → NewsJson)
    {w : List (String × ℚ)} (hw : List.Sorted dateLe w)
    (hnd : (w.map Prod.snd).Nodup) :
    List.Sorted (fun a b : String => a ≤ b)
      ((detect c news w).map (fun e => e.date)) := by
  have hlen : w.tail.length ≤ w.length := by
    cases w <;> simp [Nat.le_succ]
  have hdates :
      ((detect c news w).map (fun e => e.date)).Sublist
        (w.tail.map Prod.fst) := by
    unfold detect
    rw [List.map_filterMap]
    have hmapped :
        (w.zip w.tail).map (fun pr : (String × ℚ) × String × ℚ => pr.2.1)
          = w.tail.map Prod.fst := by
      have : (w.zip w.tail).map Prod.snd = w.tail :=
        List.map_snd_zip w w.tail hlen
      calc (w.zip w.tail).map (fun pr : (String × ℚ) × String × ℚ => pr.2.1)
          = ((w.zip w.tail).map Prod.snd).map Prod.fst := by
            rw [List.map_map]; rfl
        _ = w.tail.map Prod.fst := by rw [this]
    rw [← hmapped]
    apply filterMap_sublist_map
    intro pr hpr
    by_cases hc : pr.1.2 * (1 / 100) ≤ |pr.1.2 - pr.2.2|
    · right
      have hmem : pr.2 ∈ w := by
        have := (List.of_mem_zip hpr).2
        exact List.tail_sublist w |>.subset this
      have hfd : firstDateWithPrice w pr.2.2 = pr.2.1 :=
        firstDateWithPrice_of_nodup hnd (by simpa using hmem)
      rw [if_pos hc]
      simp [hfd]
    · left
      rw [if_neg hc]
      rfl
  have hsorted : List.Sorted (fun a b : String => a ≤ b)
      (w.tail.map Prod.fst) := by
    have htailw : List.Sorted dateLe w.tail :=
      hw.sublist (List.tail_sublist w)
    exact List.pairwise_map.mpr htailw
  exact hsorted.sublist hdates

lemma mem_companyEvents_pc {fetch : String → Except Err StockJson}
    {news : String → String → NewsJson} {c : String × String} {e : ChangeEvent}
    (h : e ∈ companyEvents fetch news c) :
    ∃ a b : ℚ, e.percentChange = round2 |a - b| := by
  unfold companyEvents at h
  cases hb : fetch c.1 >>= process_stock_prices c.1 c.2 news with
  | error err =>
    rw [hb] at h
    cases h
  | ok evs =>
    rw [hb] at h
    rcases bind_ok_process hb with ⟨j, hj⟩
    rcases process_ok_shape hj with ⟨ts, closes, _, _, hevs⟩
    exact detect_mem (hevs ▸ h)

lemma length_le_nrows : ∀ {ts : StockSeries} {c : String × List ℚ},
    c ∈ ts → c.2.length ≤ nrows ts
  | [], c, h => absurd h (List.not_mem_nil _)
  | c0 :: ts, c, h => by
    unfold nrows
    rw [List.map_cons, List.foldr_cons]
    rcases List.mem_cons.mp h with h | h
    · subst h
      exact le_max_left _ _
    · exact le_trans (length_le_nrows h) (le_max_right _ _)

lemma closesAt3_of_long : ∀ {l : StockSeries}, (∀ c ∈ l, 3 < c.2.length) →
    closesAt3 l = some (l.map (fun c => (c.1, c.2.getD 3 0)))
  | [], _ => rfl
  | c :: l, h => by
    have hc : 3 < c.2.length := h c (List.mem_cons_self _ _)
    cases hg : c.2.get? 3 with
    | none =>
      have := List.get?_eq_none.mp hg
      omega
    | some v =>
      have hv : c.2.getD 3 0 = v := by
        rw [List.getD_eq_getElem?_getD, ← List.get?_eq_getElem?, hg]
        rfl
      have hrest := closesAt3_of_long (fun x hx => h x (List.mem_cons_of_mem _ hx))
      simp only [closesAt3, hg, hrest, Option.map_some', Option.some.injEq,
        List.map_cons]
      rw [hv]

/-! Claim theorems. -/

/-- C1: for every date-sorted three-price window and each adjacent pair
index i ∈ \x7b0, 1\x7d, the detection loop emits a ChangeEvent for pair i if
and only if |price[i] − price[i+1]| ≥ 0.01 · price[i], and the emitted
event's percentChange is |price[i] − price[i+1]| rounded to 2 decimal
places (the event's date is the first-matching-price lookup and the
headline comes from the news client at that date). -/
theorem C1_change_emission (c : String) (news : String → String → NewsJson)
    (d0 d1 d2 : String) (p0 p1 p2 : ℚ) :
    detect c news [(d0, p0), (d1, p1), (d2, p2)] =
      (if p0 * (1 / 100) ≤ |p0 - p1| then
        [{ company := c,
           date := firstDateWithPrice [(d0, p0), (d1, p1), (d2, p2)] p1,
           percentChange := round2 |p0 - p1|,
           headline := process_news
             (news c (firstDateWithPrice [(d0, p0), (d1, p1), (d2, p2)] p1)) }]
       else []) ++
      (if p1 * (1 / 100) ≤ |p1 - p2| then
        [{ company := c,
           date := firstDateWithPrice [(d0, p0), (d1, p1), (d2, p2)] p2,
           percentChange := round2 |p1 - p2|,
           headline := process_news
             (news c (firstDateWithPrice [(d0, p0), (d1, p1), (d2, p2)] p2)) }]
       else []) :=
  detect_three c news d0 d1 d2 p0 p1 p2

/-- C2 counterexample: in the date-sorted window
`[("d1", 100), ("d2", 102), ("d3", 100)]` both adjacent pairs qualify,
but the second emitted event carries date `"d1"` — the date of the
FIRST window entry whose price equals price[2] — not `"d3"` = date[2]
as the claim requires. -/
theorem C2_counterexample :
    (detect "co" newsNone [("d1", 100), ("d2", 102), ("d3", 100)]).map
        (fun e => e.date) = ["d2", "d1"]
    ∧ ("d1" : String) ≠ "d3" := by
  constructor
  · norm_num [detect, firstDateWithPrice, newsNone,
      List.filterMap_cons, List.find?]
  · decide

/-- C2 amended: when the three window prices are pairwise distinct, each
qualifying pair i emits an event dated date[i+1] (the later of the two
compared observations) and the news client is queried with that same
date; with duplicated prices the recorded date is instead the first
window date carrying the matching price. -/
theorem C2_event_date (d0 d1 d2 : String) (p0 p1 p2 : ℚ)
    (c : String) (news : String → String → NewsJson)
    (h10 : p1 ≠ p0) (h20 : p2 ≠ p0) (h21 : p2 ≠ p1) :
    detect c news [(d0, p0), (d1, p1), (d2, p2)] =
      (if p0 * (1 / 100) ≤ |p0 - p1| then
        [{ company := c, date := d1, percentChange := round2 |p0 - p1|,
           headline := process_news (news c d1) }]
       else []) ++
      (if p1 * (1 / 100) ≤ |p1 - p2| then
        [{ company := c, date := d2, percentChange := round2 |p1 - p2|,
           headline := process_news (news c d2) }]
       else []) := by
  have hf1 : firstDateWithPrice [(d0, p0), (d1, p1), (d2, p2)] p1 = d1 := by
    rw [firstDateWithPrice_cons_ne (Ne.symm h10), firstDateWithPrice_cons_self]
  have hf2 : firstDateWithPrice [(d0, p0), (d1, p1), (d2, p2)] p2 = d2 := by
    rw [firstDateWithPrice_cons_ne (Ne.symm h20),
      firstDateWithPrice_cons_ne (Ne.symm h21), firstDateWithPrice_cons_self]
  rw [detect_three, hf1, hf2]

/-- C2 witness: the amended statement evaluated on the distinct-price
window `100, 102, 104`: both pairs qualify and the events carry the
later dates `"d2"` and `"d3"`. -/
theorem C2_witness :
    detect "Co" newsNone [("d1", 100), ("d2", 102), ("d3", 104)] =
      [{ company := "Co", date := "d2", percentChange := 2,
         headline := some "No articles found!" },
       { company := "Co", date := "d3", percentChange := 2,
         headline := some "No articles found!" }] := by
  have h := C2_event_date "d1" "d2" "d3" 100 102 104 "Co" newsNone
    (by norm_num) (by norm_num) (by norm_num)
  rw [h]
  norm_num [round2, process_news, newsNone]

/-- C3 counterexample: a present series with only 3 date records (each
carrying the standard 5 fields) is processed without any error — the
pipeline returns an (here empty) report instead of raising the typed
empty-result error, refuting the fewer-than-4-records clause. -/
theorem C3_counterexample :
    seriesFlat.length < 4
    ∧ process_stock_prices "XYZABS" "blablabla" newsNone (some seriesFlat)
        = .ok [] := by
  constructor
  · norm_num [seriesFlat]
  · norm_num [process_stock_prices, select_closes, nrows, closesAt3, seriesFlat,
      sort_closes, List.insertionSort, List.orderedInsert, detect,
      List.filterMap_cons, not_d2_d1, not_d3_d1, not_d3_d2]

/-- C3 amended: the typed empty-result error
`EmptyResultException("Stock not found!", tickerSymbol)` is raised
exactly when the payload lacks the expected series key; a series with
fewer date records is processed normally with the data available (a
frame without a fourth field row instead raises an untyped index
error). -/
theorem C3_typed_error_iff (sn cn : String)
    (news : String → String → NewsJson) (j : StockJson) :
    process_stock_prices sn cn news j
        = .error (.emptyResult "Stock not found!" sn) ↔ j = none := by
  cases j with
  | none => simp [process_stock_prices]
  | some ts =>
    simp only [process_stock_prices]
    cases hs : select_closes ts <;> simp

/-- C4: the batch report is the concatenation, in input-list order, of
each company's events, where a company whose fetch-and-process step
raises any error contributes nothing — the batch skips it and
continues, retaining no partial row from it. -/
theorem C4_failure_isolation (fetch : String → Except Err StockJson)
    (news : String → String → NewsJson) (cs : List (String × String)) :
    runBatch fetch news cs = (cs.map (companyEvents fetch news)).flatten
    ∧ ∀ (c : String × String) (err : Err),
        fetch c.1 >>= process_stock_prices c.1 c.2 news = .error err →
        companyEvents fetch news c = [] := by
  refine ⟨runBatch_eq_join fetch news cs, ?_⟩
  intro c err h
  unfold companyEvents
  rw [h]

/-- C4 witness: a five-company batch whose third company fails with a
transport error; the report is the concatenation of the per-company
contributions and the third company contributes no rows. -/
theorem C4_witness :
    runBatch fetchThirdFails newsNone cs5
        = (cs5.map (companyEvents fetchThirdFails newsNone)).flatten
    ∧ companyEvents fetchThirdFails newsNone ("T3", "Cc") = [] :=
  ⟨(C4_failure_isolation fetchThirdFails newsNone cs5).1,
   (C4_failure_isolation fetchThirdFails newsNone cs5).2 ("T3", "Cc")
     (.httpError "503") (by simp [fetchThirdFails, Bind.bind, Except.bind])⟩

/-- C5: a news response whose `articles` result set is the empty list
makes `process_news` return the literal string `"No articles found!"`
(a normal return value, not a raised error). -/
theorem C5_empty_articles : process_news (some []) = some "No articles found!" :=
  rfl

/-- C6 counterexample: the persist step and the verify step share one
protective block, so they are not independent: with a report row and an
initially empty world, a persist failure suppresses a verify step that
would itself have succeeded (no verification file is written), whereas
with a succeeding persist the same verify writes its file. -/
theorem C6_counterexample :
    (finalize true false [evOracle] ⟨none, [], none⟩).out_db_result = none
    ∧ (finalize false false [evOracle] ⟨none, [], none⟩).out_db_result
        = some [evOracle] := by
  constructor
  · rfl
  · simp [finalize, evOracle]

/-- C6 amended: failures of persist or verify are caught by a single
shared top-level handler and never propagate; the primary flat-file
export is written before persistence, so it always holds the report,
and a persist failure leaves every other part of the world (table and
verification file) unchanged — but it also skips the verify step. -/
theorem C6_persistence_isolation (pf vf : Bool) (report : List ChangeEvent)
    (w : World) :
    (finalize pf vf report w).out_result = some report
    ∧ (pf = true → finalize pf vf report w = { w with out_result := some report }) := by
  cases pf <;> cases vf <;> simp [finalize]

/-- C6 witness: the amended statement at a concrete failing persist:
the flat file holds the report and the rest of the world is untouched. -/
theorem C6_witness :
    (finalize true false [evOracle] ⟨none, [], none⟩).out_result = some [evOracle]
    ∧ finalize true false [evOracle] ⟨none, [], none⟩
        = { out_result := some [evOracle], dbTable := [], out_db_result := none } :=
  ⟨(C6_persistence_isolation true false [evOracle] ⟨none, [], none⟩).1,
   (C6_persistence_isolation true false [evOracle] ⟨none, [], none⟩).2 rfl⟩

/-- C7: every ChangeEvent in a batch report (the rows later written to
the flat file and the table) has a percentChange that is nonnegative
(an absolute value) and is an integer number of hundredths (rounded to
exactly 2 decimal places). -/
theorem C7_percentChange_shape (fetch : String → Except Err StockJson)
    (news : String → String → NewsJson) (cs : List (String × String))
    (e : ChangeEvent) (h : e ∈ runBatch fetch news cs) :
    0 ≤ e.percentChange ∧ ∃ n : ℤ, e.percentChange = (n : ℚ) / 100 := by
  rw [runBatch_eq_join] at h
  rcases List.mem_flatten.mp h with ⟨l, hl, hel⟩
  rcases List.mem_map.mp hl with ⟨c, _, hc⟩
  rw [← hc] at hel
  rcases mem_companyEvents_pc hel with ⟨a, b, hpc⟩
  constructor
  · rw [hpc]
    exact round2_nonneg (abs_nonneg _)
  · rw [hpc]
    exact round2_cent _

/-- C7 witness: the first event of a concrete one-company batch over
`seriesUp`; its percentChange 2 is nonnegative and a multiple of a
hundredth. -/
theorem C7_witness :
    0 ≤ evGain2.percentChange
    ∧ ∃ n : ℤ, evGain2.percentChange = (n : ℚ) / 100 :=
  C7_percentChange_shape fetchUp newsNone [("T", "Co")] evGain2 (by
    have hev : runBatch fetchUp newsNone [("T", "Co")] = [evGain2, evGain3] := by
      norm_num [runBatch, Bind.bind, Except.bind, process_stock_prices,
        select_closes, nrows, closesAt3, fetchUp, seriesUp, sort_closes,
        List.insertionSort, List.orderedInsert, detect, firstDateWithPrice,
        process_news, newsNone, round2, List.filterMap_cons, List.find?,
        not_d2_d1, not_d3_d1, not_d3_d2, evGain2, evGain3]
    rw [hev]
    exact List.mem_cons_self _ _)

/-- C8: for every series of the expected shape (at least three date
columns, each with more than three field rows), the window selection
takes exactly the entries at record index 3 of the first three columns,
and the subsequent sort is a permutation of that window ascending by
date. -/
theorem C8_window_selection (ts : StockSeries)
    (h3 : 3 ≤ ts.length) (hlong : ∀ c ∈ ts, 3 < c.2.length) :
    ∃ closes, select_closes ts = some closes
      ∧ closes = (ts.take 3).map (fun c => (c.1, c.2.getD 3 0))
      ∧ closes.length = 3
      ∧ (sort_closes closes).Perm closes
      ∧ List.Sorted dateLe (sort_closes closes) := by
  have hnr : ¬ nrows ts ≤ 3 := by
    rcases ts with _ | ⟨c0, ts2⟩
    · simp at h3
    · have h1 := length_le_nrows (List.mem_cons_self c0 ts2)
      have h2 := hlong c0 (List.mem_cons_self _ _)
      omega
  refine ⟨(ts.take 3).map (fun c => (c.1, c.2.getD 3 0)), ?_, rfl, ?_, ?_, ?_⟩
  · unfold select_closes
    rw [if_neg hnr]
    exact closesAt3_of_long (fun c hc => hlong c (List.take_subset 3 ts hc))
  · rw [List.length_map, List.length_take]
    omega
  · exact List.perm_insertionSort dateLe _
  · exact List.sorted_insertionSort dateLe _

/-- C8 witness: the selection and sort evaluated on `seriesUp`. -/
theorem C8_witness :
    ∃ closes, select_closes seriesUp = some closes
      ∧ closes = (seriesUp.take 3).map (fun c => (c.1, c.2.getD 3 0))
      ∧ closes.length = 3
      ∧ (sort_closes closes).Perm closes
      ∧ List.Sorted dateLe (sort_closes closes) :=
  C8_window_selection seriesUp (by norm_num [seriesUp])
    (by
      intro c hc
      rcases List.mem_cons.mp hc with h | hc2
      · rw [h]; norm_num
      rcases List.mem_cons.mp hc2 with h | hc3
      · rw [h]; norm_num
      rcases List.mem_cons.mp hc3 with h | hc4
      · rw [h]; norm_num
      · exact absurd hc4 (List.not_mem_nil _))

/-- C9 counterexample: for a one-company batch over `seriesDup`, whose
oldest close recurs as the newest, the report's event dates are
`["d2", "d1"]` — not in chronological order, refuting the
within-company chronological-order clause. -/
theorem C9_counterexample :
    ¬ List.Sorted (fun a b : String => a ≤ b)
      ((runBatch fetchDup newsNone [("T", "Co")]).map (fun e => e.date)) := by
  have hev : (runBatch fetchDup newsNone [("T", "Co")]).map (fun e => e.date)
      = ["d2", "d1"] := by
    norm_num [runBatch, Bind.bind, Except.bind, process_stock_prices,
      select_closes, nrows, closesAt3, fetchDup, seriesDup, sort_closes,
      List.insertionSort, List.orderedInsert, detect, firstDateWithPrice,
      process_news, newsNone, List.filterMap_cons, List.find?,
      not_d2_d1, not_d3_d1, not_d3_d2]
  rw [hev]
  simp [List.sorted_cons]
  decide

/-- C9 amended: the batch report is the concatenation of per-company
event sequences in input-list order and each company contributes at
most 2 events; within a company the events follow adjacent-pair order,
which is chronological whenever the sorted window's prices are pairwise
distinct (a duplicated price can instead record an earlier matching
date, breaking chronology). -/
theorem C9_report_order (fetch : String → Except Err StockJson)
    (news : String → String → NewsJson) (cs : List (String × String)) :
    runBatch fetch news cs = (cs.map (companyEvents fetch news)).flatten
    ∧ (∀ c, (companyEvents fetch news c).length ≤ 2)
    ∧ (∀ (c : String) (w : List (String × ℚ)),
        List.Sorted dateLe w → (w.map Prod.snd).Nodup →
        List.Sorted (fun a b : String => a ≤ b)
          ((detect c news w).map (fun e => e.date))) :=
  ⟨runBatch_eq_join fetch news cs,
   fun c => companyEvents_length fetch news c,
   fun c _ hw hnd => detect_sorted c news hw hnd⟩

/-- C9 witness: the chronological-order conclusion on the sorted
distinct-price window of `seriesUp`, together with the concatenation
shape of the corresponding one-company batch. -/
theorem C9_witness :
    List.Sorted (fun a b : String => a ≤ b)
      ((detect "Co" newsNone [("d1", 100), ("d2", 102), ("d3", 104)]).map
        (fun e => e.date)) :=
  (C9_report_order fetchUp newsNone []).2.2 "Co"
    [("d1", 100), ("d2", 102), ("d3", 104)]
    (by
      simp [List.sorted_cons, dateLe]
      decide)
    (by norm_num [List.nodup_cons, List.mem_cons])

/-- C10 counterexample: a news response whose article list is non-empty,
whose first entry has no `title` field, but where a later entry does
have one: the `title` column exists, `loc[0, "title"]` is a missing
cell (NaN), and the function returns that missing value — not the
literal `"No articles found!"`. -/
theorem C10_counterexample :
    process_news (some [[("description", "x")], [("title", "y")]]) = none
    ∧ process_news (some [[("description", "x")], [("title", "y")]])
        ≠ some "No articles found!" := by
  constructor <;> decide

/-- C10 amended: a response without the `articles` key returns the
literal `"No articles found!"`, and so does any article list none of
whose entries carries a `title` field (in particular the empty list);
but when the first entry lacks a title while a later entry has one, the
result is the missing cell, not the literal string. -/
theorem C10_missing_key_fallback :
    process_news none = some "No articles found!"
    ∧ ∀ arts : List (List (String × String)),
        (∀ a ∈ arts, ∀ kv ∈ a, kv.1 ≠ "title") →
        process_news (some arts) = some "No articles found!" := by
  refine ⟨rfl, ?_⟩
  intro arts hno
  cases arts with
  | nil => rfl
  | cons a0 rest =>
    show (if (a0 :: rest).all (fun a => a.all (fun kv => kv.1 != "title")) then
        some "No articles found!"
      else ((a0.find? (fun kv => kv.1 == "title")).map (fun kv => kv.2)))
      = some "No articles found!"
    rw [if_pos]
    rw [List.all_eq_true]
    intro a ha
    rw [List.all_eq_true]
    intro kv hkv
    exact bne_iff_ne.mpr (hno a ha kv hkv)

/-- C10 witness: the amended statement at a missing `articles` key and
at a one-article list without any `title` field. -/
theorem C10_witness :
    process_news none = some "No articles found!"
    ∧ process_news (some [[("description", "x")]]) = some "No articles found!" :=
  ⟨C10_missing_key_fallback.1,
   C10_missing_key_fallback.2 [[("description", "x")]] (by decide)⟩

end StockReport
